import Mathlib

/-
Verification of the fe-form-angular repository's form component and user
service against its natural-language specification.

Shallow embedding notes:
- `src/app/user.interface.ts` gives the `User` record.
- `src/app/user.service.ts` gives `userApiUrl`, `checkEmailExists` (a GET on
  a concatenated URL mapped through `users.length > 0`) and `addUser`.
  The HTTP layer is modelled as a function from request URL to an
  `Except Unit (List User)` response (`.error` is a transport failure).
- `src/app/app.component.ts` gives the validators (`ageValidator`,
  `emailAsyncValidator`), the hobbies FormArray operations (`addHobby`,
  `removeHobby`) and the submission lifecycle (`onSubmit`, the success
  callback that sets `isSubmitted` and schedules a 3000 ms reset).
  Time is modelled in whole milliseconds; the `delay(3000)` pipe becomes a
  countdown field on the component state, decremented by `tickMs`.
- JavaScript `{'ageRange': true}` style error objects are modelled as
  `Option (List (String × Bool))`, with `none` for the `null` return.
-/

/-- User record, after `src/app/user.interface.ts`. -/
structure User where
  id : String
  firstName : String
  lastName : String
  birthDate : String
  framework : String
  frameworkVersion : String
  email : String
  hobbies : List String
deriving DecidableEq, Repr

/-- Base URL for the user API, after `userApiUrl` in `src/app/user.service.ts`. -/
def userApiUrl : String := "http://localhost:3000/users"

/-- URL built by `checkEmailExists` in `src/app/user.service.ts`: the template
literal concatenates the base URL, the text `?email=` and the raw email. -/
def checkEmailExistsUrl (email : String) : String :=
  userApiUrl ++ "?email=" ++ email

/-- Model of `checkEmailExists` from `src/app/user.service.ts`: issues a GET
on `checkEmailExistsUrl email` and maps the returned user list through
`users.length > 0`. Transport failures pass through unmodified. -/
def checkEmailExists (email : String)
    (http : String → Except Unit (List User)) : Except Unit Bool :=
  Except.map (fun users => users.length > 0) (http (checkEmailExistsUrl email))

/-- Model of the validator returned by `emailAsyncValidator` in
`src/app/app.component.ts`: pipes `checkEmailExists` through
`map (isEmailTaken => isEmailTaken ? {emailTaken: true} : null)` and
`catchError (() => of(null))`. -/
def emailAsyncValidator (http : String → Except Unit (List User))
    (controlValue : String) : Option (List (String × Bool)) :=
  match Except.map
      (fun isEmailTaken =>
        if isEmailTaken then some [("emailTaken", true)] else none)
      (checkEmailExists controlValue http) with
  | Except.ok v => v
  | Except.error _ => none

/-- Model of the validator returned by `ageValidator (min, max)` in
`src/app/app.component.ts`: an empty control value is valid; otherwise the
age is the current year minus the birth year, and the validator fails with
`{ageRange: true}` when the age is below `min` or above `max`. -/
def ageValidator (min max : Int) (currentYear : Int)
    (controlValue : Option Int) : Option (List (String × Bool)) :=
  match controlValue with
  | none => none
  | some birthYear =>
    let age := currentYear - birthYear
    if age < min ∨ age > max then some [("ageRange", true)] else none

/-- Hobby form control, after `new FormControl('', nameValidators())` in
`addHobby`; only the value matters for the list claims. -/
structure FormControlModel where
  value : String
deriving DecidableEq, Repr

/-- Model of `addHobby` in `src/app/app.component.ts`: pushes a fresh empty
control onto the end of the hobbies FormArray. -/
def addHobby (hobbies : List FormControlModel) : List FormControlModel :=
  hobbies ++ [⟨""⟩]

/-- Model of `removeHobby index` in `src/app/app.component.ts`:
`FormArray.removeAt index` deletes the control at that position. -/
def removeHobby (hobbies : List FormControlModel) (index : Nat) :
    List FormControlModel :=
  hobbies.eraseIdx index

/- ---------------------------------------------------------------------
Query-string parsing model for the implicit URL-encoding claim: a standard
server splits the query part on `&` and reads the first `email=` parameter.
--------------------------------------------------------------------- -/

/-- Split a character list at every occurrence of the separator. -/
def splitOnChar (sep : Char) : List Char → List (List Char)
  | [] => [[]]
  | c :: cs =>
    let rest := splitOnChar sep cs
    if c = sep then [] :: rest
    else
      match rest with
      | [] => [[c]]
      | piece :: pieces => (c :: piece) :: pieces

/-- Characters after the first `?` of a URL (its query string). -/
def queryChars : List Char → List Char
  | [] => []
  | c :: cs => if c = '?' then cs else queryChars cs

/-- Key of a `key=value` query parameter. -/
def paramKey (p : List Char) : List Char :=
  p.takeWhile (fun c => c ≠ '=')

/-- Value of a `key=value` query parameter. -/
def paramVal (p : List Char) : List Char :=
  (p.dropWhile (fun c => c ≠ '=')).drop 1

/-- Filter a standard query-string reader extracts for the `email` key:
the value of the first `email=` parameter of the query. -/
def emailFilterOf (url : String) : Option (List Char) :=
  (((splitOnChar '&' (queryChars url.data)).filter
      (fun p => paramKey p = "email".data)).head?).map paramVal

/- ---------------------------------------------------------------------
Submission lifecycle (onSubmit, the success callback, the 3000 ms reset).
--------------------------------------------------------------------- -/

/-- Value object produced by `engineerForm.value`, after the control group
built in `ngOnInit`. -/
structure EngineerFormValue where
  firstName : String
  lastName : String
  dateOfBirth : String
  framework : String
  frameworkVersion : String
  email : String
  hobbies : List String
deriving DecidableEq, Repr

/-- Observable side effects a component method requests from the service
layer; `addUser v` is a single `userService.addUser` POST. -/
inductive Effect where
  | addUser (value : Option EngineerFormValue)
deriving DecidableEq, Repr

/-- Component state touched by the submission lifecycle of
`src/app/app.component.ts`: the `isSubmitted` flag, the current form value
(`none` once `resetForm` has cleared it), the hobbies FormArray, and the
milliseconds left on the pending `delay(3000)` reset (if one is scheduled). -/
structure SubmitState where
  isSubmitted : Bool
  formValue : Option EngineerFormValue
  hobbies : List FormControlModel
  resetTimer : Option Nat
deriving DecidableEq, Repr

/-- Model of `onSubmit` in `src/app/app.component.ts`: when
`engineerForm.valid` holds it calls `addUser` on the form value and nothing
else; otherwise it does nothing. -/
def onSubmit (valid : Bool) (s : SubmitState) : SubmitState × List Effect :=
  if valid then (s, [Effect.addUser s.formValue]) else (s, [])

/-- Model of the `subscribe({ next })` handler of the `addUser` call in
`onSubmit`: on a success response it sets `isSubmitted := true` and
schedules the `delay(3000)` reset; the subscription has no error callback,
so a transport error leaves the component untouched and issues no retry. -/
def handleAddUserResponse (resp : Except Unit User) (s : SubmitState) :
    SubmitState × List Effect :=
  match resp with
  | Except.ok _ =>
    ({ s with isSubmitted := true, resetTimer := some 3000 }, [])
  | Except.error _ => (s, [])

/-- Component state after the delayed `tap` body runs: `isSubmitted` is
false, `resetForm` has cleared the form and `hobbies.clear()` has emptied
the FormArray, and no reset is pending. -/
def resetState : SubmitState :=
  { isSubmitted := false, formValue := none, hobbies := [], resetTimer := none }

/-- One millisecond of elapsed time: a pending reset counts down, and when
its 3000 ms are up the `tap` body of `onSubmit` fires. -/
def tickMs (s : SubmitState) : SubmitState :=
  match s.resetTimer with
  | none => s
  | some t => if t = 1 then resetState else { s with resetTimer := some (t - 1) }

/-- Elapse the given number of milliseconds. -/
def ticks : Nat → SubmitState → SubmitState
  | 0, s => s
  | n + 1, s => ticks n (tickMs s)

/- ---------------------------------------------------------------------
Event model of the email field's async validation runs.
--------------------------------------------------------------------- -/

/-- Event on the email field: either the user changes the value at a given
time (in ms), or the lookup issued by validation run `reqId` resolves with
the raw GET response. -/
inductive EmailEvent where
  | change (time : Nat) (value : String)
  | resolve (reqId : Nat) (response : Except Unit (List User))
deriving Repr

/-- Modelled from the spec: the form control's async-validation runner is
Angular framework code, not under `src/`; per the spec only the most recent
check's result is applied ("a new keystroke supersedes an in-flight check
(latest-value-wins)", "superseded checks are discarded").  The state holds
the id of the sole in-flight run (`pending`), the field's current async
error object, and a log of every lookup issued, tagged with the time of the
value change that issued it — the validator body in `src/` calls
`checkEmailExists` directly, with no debounce operator, so the lookup is
logged at the change's own timestamp. -/
structure EmailFieldState where
  nextReqId : Nat
  pending : Option (Nat × String)
  errors : Option (List (String × Bool))
  lookups : List (Nat × String)
deriving Repr

/-- Email field before any event. -/
def emailFieldInit : EmailFieldState :=
  { nextReqId := 0, pending := none, errors := none, lookups := [] }

/-- One email-field event. A `change` starts a fresh validation run
immediately (superseding any in-flight run) and logs its lookup at the
change's time; a `resolve` applies `emailAsyncValidator` to the pending
control value, with the lookup answering with the resolved response, but
only when the resolution belongs to the still-pending run — a resolution of
a superseded run is discarded. -/
def emailStep (s : EmailFieldState) : EmailEvent → EmailFieldState
  | EmailEvent.change time value =>
    { s with
      nextReqId := s.nextReqId + 1
      pending := some (s.nextReqId, value)
      lookups := s.lookups ++ [(time, value)] }
  | EmailEvent.resolve reqId response =>
    match s.pending with
    | some (id, value) =>
      if id = reqId then
        { s with
          pending := none
          errors := emailAsyncValidator (fun _ => response) value }
      else s
    | none => s

/-- Run a sequence of email-field events. -/
def emailRun (s : EmailFieldState) : List EmailEvent → EmailFieldState
  | [] => s
  | e :: es => emailRun (emailStep s e) es

/- ---------------------------------------------------------------------
Helper lemmas on the timed reset.
--------------------------------------------------------------------- -/

/-- While fewer milliseconds than the countdown have elapsed, `ticks` only
decrements the countdown and leaves every other field untouched. -/
theorem ticks_countdown (m : Nat) :
    ∀ (t : Nat) (b : Bool) (fv : Option EngineerFormValue)
      (hb : List FormControlModel), m < t →
      ticks m ⟨b, fv, hb, some t⟩ = ⟨b, fv, hb, some (t - m)⟩ := by
  induction m with
  | zero => intro t b fv hb _; rfl
  | succ n ih =>
    intro t b fv hb h
    have ht : ¬ t = 1 := by omega
    show ticks n (tickMs ⟨b, fv, hb, some t⟩) = _
    simp only [tickMs, ht, if_false]
    rw [ih (t - 1) b fv hb (by omega)]
    have : t - 1 - n = t - (n + 1) := by omega
    rw [this]

/-- Unfold `ticks` from the far end: elapsing `n + 1` ms is elapsing `n` ms
and then one more. -/
theorem ticks_succ_right (n : Nat) :
    ∀ s : SubmitState, ticks (n + 1) s = tickMs (ticks n s) := by
  induction n with
  | zero => intro s; rfl
  | succ n ih =>
    intro s
    show ticks (n + 1) (tickMs s) = tickMs (ticks (n + 1) s)
    rw [ih (tickMs s)]
    rfl

/-- Sample backend record used by concrete witnesses. -/
def sampleUser : User :=
  ⟨"1", "Ada", "Lovelace", "1815-12-10", "angular", "1.1.1", "ada@mail.io", ["chess"]⟩

/-- C1: after a run of `onSubmit` on a valid form in which `addUser` responds
successfully exactly once, `isSubmitted` is true immediately on the success
response, stays true for every elapsed time below 3000 ms, and at exactly
3000 ms the form is reset, the hobbies FormArray is cleared to zero
controls, and `isSubmitted` is false again. -/
theorem onSubmit_success_then_timed_reset (s : SubmitState) (u : User) :
    (onSubmit true s).1 = s ∧ (onSubmit true s).2 = [Effect.addUser s.formValue] ∧
    (handleAddUserResponse (Except.ok u) s).1.isSubmitted = true ∧
    (∀ m, m < 3000 →
      (ticks m (handleAddUserResponse (Except.ok u) s).1).isSubmitted = true) ∧
    ticks 3000 (handleAddUserResponse (Except.ok u) s).1 = resetState := by
  have hstate : (handleAddUserResponse (Except.ok u) s).1 =
      ⟨true, s.formValue, s.hobbies, some 3000⟩ := rfl
  refine ⟨rfl, rfl, rfl, ?_, ?_⟩
  · intro m hm
    rw [hstate, ticks_countdown m 3000 true s.formValue s.hobbies hm]
  · rw [hstate]
    have h3000 : (3000 : Nat) = 2999 + 1 := rfl
    rw [h3000, ticks_succ_right,
      ticks_countdown 2999 3000 true s.formValue s.hobbies (by omega)]
    rfl

/-- Witness for C1 at a concrete state, user and elapsed time. -/
theorem onSubmit_success_then_timed_reset_witness :
    (5 < 3000) ∧
    (ticks 5 (handleAddUserResponse (Except.ok sampleUser) resetState).1).isSubmitted
      = true :=
  ⟨by decide,
    (onSubmit_success_then_timed_reset resetState sampleUser).2.2.2.1 5 (by decide)⟩

/-- C2: `onSubmit` on a valid form leaves the state unchanged and issues
exactly one `addUser` call carrying the form's value; on an invalid form it
issues nothing and changes no state. -/
theorem onSubmit_valid_guard (s : SubmitState) :
    onSubmit true s = (s, [Effect.addUser s.formValue]) ∧
    onSubmit false s = (s, []) :=
  ⟨rfl, rfl⟩

/-- C3: on a non-empty birth date the validator built by
`ageValidator 18 100` returns no error exactly when the current year minus
the birth year lies in [18, 100], returns `{ageRange: true}` exactly when
that difference is below 18 or above 100, and on an empty value it returns
no error. -/
theorem ageValidator_18_100_range (currentYear birthYear : Int) :
    (ageValidator 18 100 currentYear (some birthYear) = none ↔
      18 ≤ currentYear - birthYear ∧ currentYear - birthYear ≤ 100) ∧
    (ageValidator 18 100 currentYear (some birthYear) = some [("ageRange", true)] ↔
      (currentYear - birthYear < 18 ∨ 100 < currentYear - birthYear)) ∧
    ageValidator 18 100 currentYear none = none := by
  have hval : ageValidator 18 100 currentYear (some birthYear) =
      if currentYear - birthYear < 18 ∨ currentYear - birthYear > 100
        then some [("ageRange", true)] else none := rfl
  refine ⟨?_, ?_, rfl⟩
  · rw [hval]
    split
    · next h => exact iff_of_false (by simp) (by omega)
    · next h => exact iff_of_true rfl (by omega)
  · rw [hval]
    split
    · next h => exact iff_of_true rfl (by omega)
    · next h => exact iff_of_false (by simp) (by omega)

/-- C4: the async email validator yields `{emailTaken: true}` when the
lookup returns a non-empty user list, no error on an empty list, no error
when the lookup fails with a transport error, and in every case its outcome
is one of those two values — the error is never propagated. -/
theorem emailAsyncValidator_outcomes
    (http : String → Except Unit (List User)) (v : String) :
    (∀ users, http (checkEmailExistsUrl v) = Except.ok users →
      emailAsyncValidator http v =
        if users.length > 0 then some [("emailTaken", true)] else none) ∧
    (∀ e : Unit, http (checkEmailExistsUrl v) = Except.error e →
      emailAsyncValidator http v = none) ∧
    (emailAsyncValidator http v = none ∨
      emailAsyncValidator http v = some [("emailTaken", true)]) := by
  refine ⟨?_, ?_, ?_⟩
  · intro users h
    by_cases hu : users.length > 0
    · simp [emailAsyncValidator, checkEmailExists, h, Except.map, hu]
    · simp [emailAsyncValidator, checkEmailExists, h, Except.map, hu]
  · intro e h
    simp [emailAsyncValidator, checkEmailExists, h, Except.map]
  · cases hr : http (checkEmailExistsUrl v) with
    | ok users =>
      by_cases hu : users.length > 0
      · right; simp [emailAsyncValidator, checkEmailExists, hr, Except.map, hu]
      · left; simp [emailAsyncValidator, checkEmailExists, hr, Except.map, hu]
    | error e =>
      left; simp [emailAsyncValidator, checkEmailExists, hr, Except.map]

/-- Witness for C4 at a concrete non-empty lookup result. -/
theorem emailAsyncValidator_outcomes_witness :
    ((fun _ => Except.ok [sampleUser] :
        String → Except Unit (List User)) (checkEmailExistsUrl "ada@mail.io")
      = Except.ok [sampleUser]) ∧
    emailAsyncValidator (fun _ => Except.ok [sampleUser]) "ada@mail.io" =
      (if ([sampleUser] : List User).length > 0
        then some [("emailTaken", true)] else none) :=
  ⟨rfl,
    (emailAsyncValidator_outcomes (fun _ => Except.ok [sampleUser])
      "ada@mail.io").1 [sampleUser] rfl⟩

/-- C5: with two email changes in quick succession, only the check issued
for the most recent value determines the field's final error state: the
final errors equal the validator outcome on the second check's response,
whatever the first check's response is and whichever order the responses
arrive in. -/
theorem email_latest_check_wins (t1 t2 : Nat) (v1 v2 : String)
    (r1 r2 : Except Unit (List User)) :
    (emailRun emailFieldInit
        [EmailEvent.change t1 v1, EmailEvent.change t2 v2,
         EmailEvent.resolve 0 r1, EmailEvent.resolve 1 r2]).errors =
      emailAsyncValidator (fun _ => r2) v2 ∧
    (emailRun emailFieldInit
        [EmailEvent.change t1 v1, EmailEvent.change t2 v2,
         EmailEvent.resolve 1 r2, EmailEvent.resolve 0 r1]).errors =
      emailAsyncValidator (fun _ => r2) v2 :=
  ⟨rfl, rfl⟩

/-- C6: when the `addUser` call fails with a transport error, the component
state is unchanged — `isSubmitted` keeps its value, no reset is scheduled —
and no effect (in particular no retry of `addUser`) is issued. -/
theorem addUser_error_no_change (s : SubmitState) (e : Unit) :
    handleAddUserResponse (Except.error e) s = (s, []) ∧
    (handleAddUserResponse (Except.error e) s).1.isSubmitted = s.isSubmitted ∧
    (handleAddUserResponse (Except.error e) s).1.resetTimer = s.resetTimer :=
  ⟨rfl, rfl, rfl⟩

/-- C7: for every email and every user list the backend returns for the GET
query, `checkEmailExists` yields true exactly when that list is non-empty. -/
theorem checkEmailExists_true_iff_nonempty (email : String)
    (http : String → Except Unit (List User)) (users : List User)
    (h : http (checkEmailExistsUrl email) = Except.ok users) :
    (checkEmailExists email http = Except.ok true ↔ users ≠ []) := by
  simp [checkEmailExists, h, Except.map, List.length_pos]

/-- Witness for C7 at a concrete backend response. -/
theorem checkEmailExists_true_iff_nonempty_witness :
    ((fun _ => Except.ok [sampleUser] :
        String → Except Unit (List User)) (checkEmailExistsUrl "ada@mail.io")
      = Except.ok [sampleUser]) ∧
    (checkEmailExists "ada@mail.io" (fun _ => Except.ok [sampleUser])
      = Except.ok true ↔ ([sampleUser] : List User) ≠ []) :=
  ⟨rfl,
    checkEmailExists_true_iff_nonempty "ada@mail.io"
      (fun _ => Except.ok [sampleUser]) [sampleUser] rfl⟩

/-- C8: removing the hobby at an in-range index k from an n-control hobbies
FormArray yields n-1 controls, with every control before k unmoved, every
control after k shifted down by one (so relative order is preserved), and —
when the controls are pairwise distinct — the control previously at k
absent; and `addHobby` appends one new empty control at the end. -/
theorem removeHobby_addHobby_spec (hobbies : List FormControlModel) (k : Nat)
    (hk : k < hobbies.length) :
    (removeHobby hobbies k).length = hobbies.length - 1 ∧
    (∀ i, i < k → (removeHobby hobbies k)[i]? = hobbies[i]?) ∧
    (∀ i, k ≤ i → (removeHobby hobbies k)[i]? = hobbies[i + 1]?) ∧
    (hobbies.Nodup → hobbies.get ⟨k, hk⟩ ∉ removeHobby hobbies k) ∧
    (∀ hs : List FormControlModel, addHobby hs = hs ++ [⟨""⟩]) := by
  have hlen : (hobbies.eraseIdx k).length = hobbies.length - 1 := by
    have := List.length_eraseIdx_add_one (l := hobbies) (i := k) hk
    omega
  refine ⟨hlen, ?_, ?_, ?_, fun hs => rfl⟩
  · intro i hik
    have h1 : i < (hobbies.eraseIdx k).length := by omega
    have h2 : i < hobbies.length := by omega
    rw [removeHobby, List.getElem?_eq_getElem h1, List.getElem?_eq_getElem h2]
    exact congrArg some (List.getElem_eraseIdx_of_lt hobbies k i h1 hik)
  · intro i hki
    by_cases hi : i < hobbies.length - 1
    · have h1 : i < (hobbies.eraseIdx k).length := by omega
      have h2 : i + 1 < hobbies.length := by omega
      rw [removeHobby, List.getElem?_eq_getElem h1, List.getElem?_eq_getElem h2]
      exact congrArg some (List.getElem_eraseIdx_of_ge hobbies k i h1 hki)
    · rw [removeHobby, List.getElem?_eq_none (by omega),
        List.getElem?_eq_none (by omega)]
  · intro hnd hmem
    rw [removeHobby, List.mem_eraseIdx_iff_getElem] at hmem
    obtain ⟨i, hi, hik, heq⟩ := hmem
    exact hik ((List.Nodup.getElem_inj_iff hnd).mp heq)

/-- Sample hobbies FormArray used by the C8 witness. -/
def sampleHobbies : List FormControlModel := [⟨"chess"⟩, ⟨"go"⟩, ⟨"piano"⟩]

/-- Witness for C8 at a concrete three-control FormArray and index 1. -/
theorem removeHobby_addHobby_spec_witness :
    (1 < sampleHobbies.length) ∧
    (removeHobby sampleHobbies 1).length = sampleHobbies.length - 1 :=
  ⟨by decide, (removeHobby_addHobby_spec sampleHobbies 1 (by decide)).1⟩

/-- C9 counterexample: the async email lookup is not debounced. A single
change at time 0 already issues its lookup at time 0, and two rapid
changes, at 0 ms and 1 ms, issue two lookups, each at the instant of its
own change — the validator body calls `checkEmailExists` directly, with no
debounce operator in its pipe, so no settling delay ever precedes a
lookup. -/
theorem email_lookup_not_debounced :
    (emailRun emailFieldInit [EmailEvent.change 0 "a@b.c"]).lookups
      = [(0, "a@b.c")] ∧
    (emailRun emailFieldInit
        [EmailEvent.change 0 "a@b.c", EmailEvent.change 1 "a@b.co"]).lookups
      = [(0, "a@b.c"), (1, "a@b.co")] :=
  ⟨rfl, rfl⟩

/-- C9 amended: every email value change immediately issues exactly one
lookup — for any sequence of changes the lookup log is exactly the list of
(change time, value) pairs, with no coalescing and no settling delay. -/
theorem email_lookup_per_change (tvs : List (Nat × String))
    (s : EmailFieldState) :
    (emailRun s (tvs.map fun p => EmailEvent.change p.1 p.2)).lookups
      = s.lookups ++ tvs := by
  induction tvs generalizing s with
  | nil => simp [emailRun]
  | cons p ps ih =>
    show (emailRun (emailStep s (EmailEvent.change p.1 p.2))
        (ps.map fun p => EmailEvent.change p.1 p.2)).lookups = s.lookups ++ p :: ps
    rw [ih]
    simp [emailStep]

/-- C10: `checkEmailExists` forms its GET URL by directly concatenating the
base users URL, the literal `?email=`, and the raw email, with no
URL-encoding; consequently for the email `a&email=b`, which contains the
reserved character `&`, a standard query-string reader extracts the filter
`a` — not the literal email string. -/
theorem checkEmailExistsUrl_raw_concat :
    (∀ email, checkEmailExistsUrl email
      = "http://localhost:3000/users?email=" ++ email) ∧
    emailFilterOf (checkEmailExistsUrl "a&email=b") = some ("a".data) ∧
    emailFilterOf (checkEmailExistsUrl "a&email=b") ≠ some ("a&email=b".data) :=
  ⟨fun email => rfl, by decide, by decide⟩
